import Mathlib

/-!
Shallow embedding of the halo2 Fibonacci circuit from `src/fibonacci.rs`.

The circuit uses three advice columns (`elem_1`, `elem_2`, `elem_3`), one
instance column, one selector `q_fib`, and a single gate
`q_fib * (elem_1 + elem_2 - elem_3)`.  Synthesis builds one region per row:
`Config::init` seeds row 0 and `Config::assign` advances the recurrence by
one row, threading state between rows with copy constraints.  The final
`elem_3` cell is bound to row 0 of the instance column.

Modelling choices: halo2's `Value<F>` is `Option F` with `Unknown`
propagation through arithmetic; columns are identified by their allocation
index in the constraint system; each `assign_region` call produces one
`RegionData` (every assignment in the source happens at region offset 0,
and the simple floor planner lays regions out one row each, so region
index = absolute row); copy constraints and instance bindings are recorded
as lists of cell references; the mock-prover verdict is modelled by
`satisfied`, which checks the gate on every region, every copy constraint,
and every instance binding against the supplied public-input columns.
-/

namespace Halo2Fib

/-- halo2 `Value<F>`: either a known field element or unknown. -/
abbrev Value (F : Type) := Option F

/-- `Value::known`. -/
def Value.known {F : Type} (a : F) : Value F := some a

/-- `Value::unknown`. -/
def Value.unknown {F : Type} : Value F := none

/-- Addition on `Value`: unknown propagates through the sum. -/
def Value.add {F : Type} [Add F] : Value F → Value F → Value F
  | some a, some b => some (a + b)
  | _, _ => none

/-- Subtraction on `Value`: unknown propagates through the difference. -/
def Value.sub {F : Type} [Sub F] : Value F → Value F → Value F
  | some a, some b => some (a - b)
  | _, _ => none

/-- A column identifier: advice (private) or instance (public), by
allocation index. -/
inductive ColId where
  | adviceCol (i : Nat)
  | instanceCol (i : Nat)
deriving DecidableEq, Repr

/-- halo2 `Expression` as used by this circuit: selectors, advice queries
at the current rotation, constants, and ring operations. -/
inductive Expr (F : Type) where
  | const (c : F)
  | selectorExpr (s : Nat)
  | advice (col : Nat)
  | add (a b : Expr F)
  | sub (a b : Expr F)
  | mul (a b : Expr F)
deriving DecidableEq

/-- Evaluate an expression given the selector values and the advice values
of one row. -/
def Expr.eval {F : Type} [Field F] (selv : Nat → F) (adv : Nat → F) : Expr F → F
  | .const c => c
  | .selectorExpr s => selv s
  | .advice c => adv c
  | .add a b => a.eval selv adv + b.eval selv adv
  | .sub a b => a.eval selv adv - b.eval selv adv
  | .mul a b => a.eval selv adv * b.eval selv adv

/-- A named gate: a list of polynomial constraints that must vanish on
every row. -/
structure Gate (F : Type) where
  name : String
  polys : List (Expr F)
deriving DecidableEq

/-- The part of halo2's `ConstraintSystem` this circuit touches: column
and selector allocation counters, the equality-enabled columns, and the
registered gates. -/
structure ConstraintSystem (F : Type) where
  num_advice : Nat
  num_instance : Nat
  num_selectors : Nat
  equality : List ColId
  gates : List (Gate F)
deriving DecidableEq

/-- `cs.advice_column()`: allocate a fresh advice column, returning its
index. -/
def ConstraintSystem.advice_column {F : Type} (cs : ConstraintSystem F) :
    ConstraintSystem F × Nat :=
  ({ cs with num_advice := cs.num_advice + 1 }, cs.num_advice)

/-- `cs.instance_column()`: allocate a fresh instance column, returning its
index. -/
def ConstraintSystem.instance_column {F : Type} (cs : ConstraintSystem F) :
    ConstraintSystem F × Nat :=
  ({ cs with num_instance := cs.num_instance + 1 }, cs.num_instance)

/-- `cs.enable_equality(col)`: mark a column as usable in copy
constraints. -/
def ConstraintSystem.enable_equality {F : Type} (cs : ConstraintSystem F)
    (c : ColId) : ConstraintSystem F :=
  { cs with equality := cs.equality ++ [c] }

/-- `cs.selector()`: allocate a fresh selector, returning its index. -/
def ConstraintSystem.selector {F : Type} (cs : ConstraintSystem F) :
    ConstraintSystem F × Nat :=
  ({ cs with num_selectors := cs.num_selectors + 1 }, cs.num_selectors)

/-- `cs.create_gate(name, ...)`: register a gate. -/
def ConstraintSystem.create_gate {F : Type} (cs : ConstraintSystem F)
    (name : String) (polys : List (Expr F)) : ConstraintSystem F :=
  { cs with gates := cs.gates ++ [⟨name, polys⟩] }

/-- The circuit's `Config`: handles to the three advice columns, the
selector and the instance column. -/
structure Config where
  elem_1 : Nat
  elem_2 : Nat
  elem_3 : Nat
  q_fib : Nat
  inst : Nat
deriving DecidableEq, Repr

/-- `Config::configure`: allocate `elem_1`, `elem_2`, `elem_3` (advice)
and `instance` (public), enabling equality on each; allocate the `q_fib`
selector; register the "fibonacci" gate
`q_fib * (elem_1 + elem_2 - elem_3)`; bundle the handles. -/
def Config.configure {F : Type} [Field F] (cs0 : ConstraintSystem F) :
    ConstraintSystem F × Config :=
  let p1 := cs0.advice_column
  let cs1 := p1.1.enable_equality (ColId.adviceCol p1.2)
  let p2 := cs1.advice_column
  let cs2 := p2.1.enable_equality (ColId.adviceCol p2.2)
  let p3 := cs2.advice_column
  let cs3 := p3.1.enable_equality (ColId.adviceCol p3.2)
  let p4 := cs3.instance_column
  let cs4 := p4.1.enable_equality (ColId.instanceCol p4.2)
  let p5 := cs4.selector
  let poly : Expr F :=
    Expr.mul (Expr.selectorExpr p5.2)
      (Expr.sub (Expr.add (Expr.advice p1.2) (Expr.advice p2.2))
        (Expr.advice p3.2))
  let cs5 := p5.1.create_gate "fibonacci" [poly]
  (cs5, ⟨p1.2, p2.2, p3.2, p5.2, p4.2⟩)

/-- A cell address: region/row index and column index.  Every region of
this circuit occupies exactly one row (all assignments are at offset 0),
so the region index is the absolute row. -/
structure CellRef where
  row : Nat
  col : Nat
deriving DecidableEq, Repr

/-- halo2 `AssignedCell`: a cell reference together with its value. -/
structure AssignedCell (F : Type) where
  cell : CellRef
  value : Value F
deriving DecidableEq

/-- One region (= one row here): its name, the selectors enabled at its
offset 0, and the advice assignments `(column, value)` made in it. -/
structure RegionData (F : Type) where
  name : String
  selectors : List Nat
  assignments : List (Nat × Value F)
deriving DecidableEq

/-- Synthesis state: the regions laid out so far, the copy constraints,
and the instance bindings `(cell, instance column, instance row)`. -/
structure SynthState (F : Type) where
  regions : List (RegionData F)
  copies : List (CellRef × CellRef)
  instCopies : List (CellRef × Nat × Nat)
deriving DecidableEq

/-- The state before synthesis begins. -/
def emptyState (F : Type) : SynthState F := ⟨[], [], []⟩

/-- The value assigned to column `c` in this region (unknown if the region
never assigned that column). -/
def RegionData.valAt {F : Type} (rg : RegionData F) (c : Nat) : Value F :=
  match rg.assignments.find? (fun p => p.1 == c) with
  | some p => p.2
  | none => Value.unknown

/-- The value held at a cell reference in the synthesized state. -/
def SynthState.cellValue {F : Type} (st : SynthState F) (r : CellRef) : Value F :=
  match st.regions[r.row]? with
  | some rg => rg.valAt r.col
  | none => Value.unknown

/-- `Config::init`: open the "init Fibonacci" region, enable `q_fib` at
offset 0, assign `elem_1 := seed1`, `elem_2 := seed2`,
`elem_3 := seed1 + seed2`, and return the assigned `elem_2` and `elem_3`
cells. -/
def Config.init {F : Type} [Field F] (cfg : Config) (st : SynthState F)
    (elem_1 elem_2 : Value F) :
    SynthState F × AssignedCell F × AssignedCell F :=
  let r := st.regions.length
  let c2 : AssignedCell F := ⟨⟨r, cfg.elem_2⟩, elem_2⟩
  let elem_3 := Value.add elem_1 c2.value
  let c3 : AssignedCell F := ⟨⟨r, cfg.elem_3⟩, elem_3⟩
  let rg : RegionData F :=
    ⟨"init Fibonacci", [cfg.q_fib],
     [(cfg.elem_1, elem_1), (cfg.elem_2, elem_2), (cfg.elem_3, elem_3)]⟩
  ({ st with regions := st.regions ++ [rg] }, c2, c3)

/-- `Config::assign`: open a "next row" region, enable `q_fib` at offset
0, copy the previous `elem_2` cell into this row's `elem_1` and the
previous `elem_3` cell into this row's `elem_2` (each `copy_advice`
records a copy constraint), assign `elem_3` as their sum, and return the
new `elem_2` and `elem_3` cells. -/
def Config.assign {F : Type} [Field F] (cfg : Config) (st : SynthState F)
    (elem_2 elem_3 : AssignedCell F) :
    SynthState F × AssignedCell F × AssignedCell F :=
  let r := st.regions.length
  let c1 : AssignedCell F := ⟨⟨r, cfg.elem_1⟩, elem_2.value⟩
  let c2 : AssignedCell F := ⟨⟨r, cfg.elem_2⟩, elem_3.value⟩
  let v3 := Value.add c1.value c2.value
  let c3 : AssignedCell F := ⟨⟨r, cfg.elem_3⟩, v3⟩
  let rg : RegionData F :=
    ⟨"next row", [cfg.q_fib],
     [(cfg.elem_1, c1.value), (cfg.elem_2, c2.value), (cfg.elem_3, v3)]⟩
  ({ regions := st.regions ++ [rg],
     copies := st.copies ++ [(elem_2.cell, c1.cell), (elem_3.cell, c2.cell)],
     instCopies := st.instCopies }, c2, c3)

/-- `Config::expose_public`: `constrain_instance(cell, instance, row)`. -/
def Config.expose_public {F : Type} [Field F] (cfg : Config)
    (st : SynthState F) (cell : AssignedCell F) (row : Nat) : SynthState F :=
  { st with instCopies := st.instCopies ++ [(cell.cell, cfg.inst, row)] }

/-- The loop body of `MyCircuit::synthesize`: each iteration calls
`assign`, then threads `elem_2 := elem_3` (the handle from the previous
step) and `elem_3 := new_elem_3`, discarding the returned `elem_2`
handle. -/
def synthLoop {F : Type} [Field F] (cfg : Config) :
    Nat → SynthState F → AssignedCell F → AssignedCell F →
      SynthState F × AssignedCell F × AssignedCell F
  | 0, st, e2, e3 => (st, e2, e3)
  | k + 1, st, e2, e3 =>
      let t := cfg.assign st e2 e3
      synthLoop cfg k t.1 e3 t.2.2

/-- The straightforward chained driver: each iteration threads exactly the
two handles returned by `assign`.  Used to state the refinement between
the source's driver (which discards the returned `elem_2`) and handle
threading. -/
def chainLoop {F : Type} [Field F] (cfg : Config) :
    Nat → SynthState F → AssignedCell F → AssignedCell F →
      SynthState F × AssignedCell F × AssignedCell F
  | 0, st, e2, e3 => (st, e2, e3)
  | k + 1, st, e2, e3 =>
      let t := cfg.assign st e2 e3
      chainLoop cfg k t.1 t.2.1 t.2.2

/-- `MyCircuit::synthesize` before the public binding: `init`, then the
`for _i in 3..10` loop (7 iterations of `assign`). -/
def MyCircuit.synthPair {F : Type} [Field F] (cfg : Config)
    (st : SynthState F) (elem_1 elem_2 : Value F) :
    SynthState F × AssignedCell F × AssignedCell F :=
  let t0 := cfg.init st elem_1 elem_2
  synthLoop cfg 7 t0.1 t0.2.1 t0.2.2

/-- `MyCircuit::synthesize`: `init`, 7 `assign` steps, then
`expose_public` of the final `elem_3` at instance row 0. -/
def MyCircuit.synthesize {F : Type} [Field F] (cfg : Config)
    (st : SynthState F) (elem_1 elem_2 : Value F) : SynthState F :=
  let t := MyCircuit.synthPair cfg st elem_1 elem_2
  cfg.expose_public t.1 t.2.2 0

/-- Variant of `MyCircuit.synthPair` whose loop threads the handles
returned by `assign` (for the refinement claim). -/
def MyCircuit.synthPairChained {F : Type} [Field F] (cfg : Config)
    (st : SynthState F) (elem_1 elem_2 : Value F) :
    SynthState F × AssignedCell F × AssignedCell F :=
  let t0 := cfg.init st elem_1 elem_2
  chainLoop cfg 7 t0.1 t0.2.1 t0.2.2

/-- Variant of `MyCircuit.synthesize` built on the chained loop. -/
def MyCircuit.synthesizeChained {F : Type} [Field F] (cfg : Config)
    (st : SynthState F) (elem_1 elem_2 : Value F) : SynthState F :=
  let t := MyCircuit.synthPairChained cfg st elem_1 elem_2
  cfg.expose_public t.1 t.2.2 0

/-- A fresh constraint system. -/
def emptyCS (F : Type) : ConstraintSystem F := ⟨0, 0, 0, [], []⟩

/-- The config produced by running `Config::configure` on a fresh
constraint system, as `MyCircuit::configure` does. -/
def stdConfig (F : Type) [Field F] : Config := (Config.configure (emptyCS F)).2

/-- The synthesized state of `MyCircuit` with the given seed values. -/
def fibTrace {F : Type} [Field F] (elem_1 elem_2 : Value F) : SynthState F :=
  MyCircuit.synthesize (stdConfig F) (emptyState F) elem_1 elem_2

/-- The fibonacci gate holds on a region: whenever `q_fib` is enabled,
`elem_1 + elem_2 - elem_3` is the known field zero on that row. -/
def gateHolds {F : Type} [Field F] (cfg : Config) (rg : RegionData F) : Prop :=
  cfg.q_fib ∈ rg.selectors →
    Value.sub (Value.add (rg.valAt cfg.elem_1) (rg.valAt cfg.elem_2))
      (rg.valAt cfg.elem_3) = Value.known 0

instance {F : Type} [Field F] [DecidableEq F] (cfg : Config)
    (rg : RegionData F) : Decidable (gateHolds cfg rg) := by
  unfold gateHolds; infer_instance

/-- All regions satisfy the gate. -/
def gatesOK {F : Type} [Field F] (cfg : Config) (st : SynthState F) : Prop :=
  ∀ rg ∈ st.regions, gateHolds cfg rg

instance {F : Type} [Field F] [DecidableEq F] (cfg : Config)
    (st : SynthState F) : Decidable (gatesOK cfg st) := by
  unfold gatesOK; infer_instance

/-- All copy constraints hold: both cells carry the same value. -/
def copiesOK {F : Type} [Field F] (st : SynthState F) : Prop :=
  ∀ p ∈ st.copies, st.cellValue p.1 = st.cellValue p.2

instance {F : Type} [Field F] [DecidableEq F] (st : SynthState F) :
    Decidable (copiesOK st) := by
  unfold copiesOK; infer_instance

/-- Look up row `r` of instance column `c` in the public-input columns. -/
def instLookup {F : Type} (instances : List (List F)) (c r : Nat) : Option F :=
  (instances[c]?).bind fun cv => cv[r]?

/-- All instance bindings hold: the bound slot exists and the cell's value
is known and equals the public input there. -/
def instanceOK {F : Type} [Field F] (st : SynthState F)
    (instances : List (List F)) : Prop :=
  ∀ p ∈ st.instCopies,
    instLookup instances p.2.1 p.2.2 ≠ none ∧
    st.cellValue p.1 = instLookup instances p.2.1 p.2.2

instance {F : Type} [Field F] [DecidableEq F] (st : SynthState F)
    (instances : List (List F)) : Decidable (instanceOK st instances) := by
  unfold instanceOK; infer_instance

/-- The mock-prover verdict: every gate row, copy constraint and instance
binding is satisfied. -/
def satisfied {F : Type} [Field F] (cfg : Config) (st : SynthState F)
    (instances : List (List F)) : Prop :=
  gatesOK cfg st ∧ copiesOK st ∧ instanceOK st instances

instance {F : Type} [Field F] [DecidableEq F] (cfg : Config)
    (st : SynthState F) (instances : List (List F)) :
    Decidable (satisfied cfg st instances) := by
  unfold satisfied; infer_instance

/-- The two-term recurrence `t 0 = a`, `t 1 = b`,
`t (n+2) = t n + t (n+1)`. -/
def fibSeq {F : Type} [Field F] (a b : F) : Nat → F
  | 0 => a
  | 1 => b
  | n + 2 => fibSeq a b n + fibSeq a b (n + 1)

/-- The value-independent geometry of a region: its name, enabled
selectors and assigned columns. -/
def RegionData.shape {F : Type} (rg : RegionData F) :
    String × List Nat × List Nat :=
  (rg.name, rg.selectors, rg.assignments.map Prod.fst)

/-- The value-independent geometry of a synthesized state. -/
def SynthState.shape {F : Type} (st : SynthState F) :
    List (String × List Nat × List Nat) × List (CellRef × CellRef) ×
      List (CellRef × Nat × Nat) :=
  (st.regions.map RegionData.shape, st.copies, st.instCopies)

/-! ### Helper lemmas -/

theorem stdConfig_eq {F : Type} [Field F] : stdConfig F = ⟨0, 1, 2, 0, 0⟩ := rfl

theorem valAt_col0 {F : Type} (nm : String) (s : List Nat) (v1 v2 v3 : Value F) :
    RegionData.valAt ⟨nm, s, [(0, v1), (1, v2), (2, v3)]⟩ 0 = v1 := rfl

theorem valAt_col1 {F : Type} (nm : String) (s : List Nat) (v1 v2 v3 : Value F) :
    RegionData.valAt ⟨nm, s, [(0, v1), (1, v2), (2, v3)]⟩ 1 = v2 := rfl

theorem valAt_col2 {F : Type} (nm : String) (s : List Nat) (v1 v2 v3 : Value F) :
    RegionData.valAt ⟨nm, s, [(0, v1), (1, v2), (2, v3)]⟩ 2 = v3 := rfl

theorem cellValue_append_lt {F : Type} (st : SynthState F) (rg : RegionData F)
    (cp : List (CellRef × CellRef)) (ic : List (CellRef × Nat × Nat))
    (c : CellRef) (h : c.row < st.regions.length) :
    SynthState.cellValue ⟨st.regions ++ [rg], cp, ic⟩ c = st.cellValue c := by
  simp only [SynthState.cellValue, List.getElem?_append_left h]

theorem cellValue_append_self {F : Type} (st : SynthState F) (rg : RegionData F)
    (cp : List (CellRef × CellRef)) (ic : List (CellRef × Nat × Nat)) (c : Nat) :
    SynthState.cellValue ⟨st.regions ++ [rg], cp, ic⟩ ⟨st.regions.length, c⟩ =
      rg.valAt c := by
  simp only [SynthState.cellValue, List.getElem?_concat_length]

theorem fibSeq_shift {F : Type} [Field F] (x y : F) :
    ∀ n, fibSeq y (x + y) n = fibSeq x y (n + 1) := by
  have key : ∀ n, fibSeq y (x + y) n = fibSeq x y (n + 1) ∧
      fibSeq y (x + y) (n + 1) = fibSeq x y (n + 2) := by
    intro n
    induction n with
    | zero => exact ⟨rfl, by simp [fibSeq]⟩
    | succ m ihm =>
        refine ⟨ihm.2, ?_⟩
        show fibSeq y (x + y) m + fibSeq y (x + y) (m + 1) =
          fibSeq x y (m + 1) + fibSeq x y (m + 2)
        rw [ihm.1, ihm.2]
  exact fun n => (key n).1

/-- A handle is good in a state: it points below the frontier, the state
holds its value at its cell, and the value is the known element `x`. -/
def goodHandle {F : Type} [Field F] (st : SynthState F) (h : AssignedCell F)
    (x : F) : Prop :=
  h.cell.row < st.regions.length ∧ st.cellValue h.cell = h.value ∧
    h.value = Value.known x

/-- Invariant maintained by synthesis: gates and copies hold and every
recorded copy points below the frontier. -/
def stateOK {F : Type} [Field F] (cfg : Config) (st : SynthState F) : Prop :=
  gatesOK cfg st ∧ copiesOK st ∧
    ∀ p ∈ st.copies, p.1.row < st.regions.length ∧ p.2.row < st.regions.length

/-- `ZMod 101` serves as the concrete field for witnesses. -/
instance fact_prime_101 : Fact (Nat.Prime 101) := ⟨by norm_num⟩

/-! ### Easy claims -/

/-- Claim C2: every `Config::assign` call creates a `register1` cell holding
exactly `prev_b`'s value and a `register2` cell holding exactly `prev_c`'s
value (visible in the appended region's assignments and in the returned
`register2` handle), and it records copy constraints binding `prev_b`'s cell
to the new `register1` cell and `prev_c`'s cell to the new `register2`
cell, rather than recomputing the values independently. -/
theorem claim2_assign_copies {F : Type} [Field F] (cfg : Config)
    (st : SynthState F) (prevB prevC : AssignedCell F) :
    (cfg.assign st prevB prevC).1.regions = st.regions ++
      [⟨"next row", [cfg.q_fib],
        [(cfg.elem_1, prevB.value), (cfg.elem_2, prevC.value),
         (cfg.elem_3, Value.add prevB.value prevC.value)]⟩] ∧
    (cfg.assign st prevB prevC).1.copies = st.copies ++
      [(prevB.cell, ⟨st.regions.length, cfg.elem_1⟩),
       (prevC.cell, ⟨st.regions.length, cfg.elem_2⟩)] ∧
    (cfg.assign st prevB prevC).2.1 =
      ⟨⟨st.regions.length, cfg.elem_2⟩, prevC.value⟩ :=
  ⟨rfl, rfl, rfl⟩

/-- Claim C5: `Config::init` enables the selector at its region's row 0,
assigns `seed1` into `register1`, `seed2` into `register2`, and
`seed1 + seed2` into `register3` (the sum being unknown when either seed
is unknown), and returns handles to exactly the assigned `register2` and
`register3` cells. -/
theorem claim5_init_contract {F : Type} [Field F] (cfg : Config)
    (st : SynthState F) (seed1 seed2 : Value F) :
    (cfg.init st seed1 seed2).1.regions = st.regions ++
      [⟨"init Fibonacci", [cfg.q_fib],
        [(cfg.elem_1, seed1), (cfg.elem_2, seed2),
         (cfg.elem_3, Value.add seed1 seed2)]⟩] ∧
    (cfg.init st seed1 seed2).1.copies = st.copies ∧
    (cfg.init st seed1 seed2).2.1 =
      ⟨⟨st.regions.length, cfg.elem_2⟩, seed2⟩ ∧
    (cfg.init st seed1 seed2).2.2 =
      ⟨⟨st.regions.length, cfg.elem_3⟩, Value.add seed1 seed2⟩ ∧
    (∀ v : Value F, Value.add Value.unknown v = Value.unknown ∧
      Value.add v Value.unknown = Value.unknown) := by
  refine ⟨rfl, rfl, rfl, rfl, ?_⟩
  intro v
  cases v <;> exact ⟨rfl, rfl⟩

/-- Claim C7: `Config::configure` allocates exactly three advice columns
and one instance column, enables equality on all four, allocates exactly
one selector, and returns the configuration bundling those handles. -/
theorem claim7_configure_geometry {F : Type} [Field F]
    (cs : ConstraintSystem F) :
    (Config.configure cs).1.num_advice = cs.num_advice + 3 ∧
    (Config.configure cs).1.num_instance = cs.num_instance + 1 ∧
    (Config.configure cs).1.num_selectors = cs.num_selectors + 1 ∧
    (Config.configure cs).1.equality = cs.equality ++
      [ColId.adviceCol cs.num_advice, ColId.adviceCol (cs.num_advice + 1),
       ColId.adviceCol (cs.num_advice + 2),
       ColId.instanceCol cs.num_instance] ∧
    (Config.configure cs).2 = ⟨cs.num_advice, cs.num_advice + 1,
      cs.num_advice + 2, cs.num_selectors, cs.num_instance⟩ := by
  refine ⟨rfl, rfl, rfl, ?_, rfl⟩
  simp [Config.configure, ConstraintSystem.advice_column,
    ConstraintSystem.instance_column, ConstraintSystem.enable_equality,
    ConstraintSystem.selector, ConstraintSystem.create_gate]

/-- Claim C8: synthesizing with all-unknown values produces the identical
region/selector/column geometry, copy constraints and instance bindings
as synthesizing with known witness values; the runs differ only in cell
values. -/
theorem claim8_dual_pass {F : Type} [Field F] (a b : F) :
    (MyCircuit.synthesize (stdConfig F) (emptyState F)
        (Value.known a) (Value.known b)).shape =
      (MyCircuit.synthesize (stdConfig F) (emptyState F)
        Value.unknown Value.unknown).shape := rfl

/-- Claim C9 counterexample: with seeds 1, 1 the synthesized trace does
not occupy 9 rows. -/
theorem claim9_counterexample :
    ¬ ((fibTrace (F := ZMod 101) (Value.known 1) (Value.known 1)).regions.length
        = 9) := by decide

/-- Claim C9 (amended): the trace occupies 8 rows in total — one init
region plus the 7 stepper regions, one row per region. -/
theorem claim9_row_count {F : Type} [Field F] (a b : F) :
    (fibTrace (Value.known a) (Value.known b)).regions.length = 8 := rfl

/-! ### Step and loop invariants -/

theorem Value.add_known {F : Type} [Add F] (x y : F) :
    Value.add (Value.known x) (Value.known y) = Value.known (x + y) := rfl

theorem gate_on_known {F : Type} [Field F] (x y : F) :
    Value.sub (Value.add (Value.known x) (Value.known y))
      (Value.add (Value.known x) (Value.known y)) = Value.known 0 := by
  simp [Value.add, Value.sub, Value.known]

theorem assign_step {F : Type} [Field F] (st : SynthState F)
    (e2 e3 : AssignedCell F) (x y : F)
    (h2 : goodHandle st e2 x) (h3 : goodHandle st e3 y)
    (hok : stateOK (stdConfig F) st) :
    stateOK (stdConfig F) ((stdConfig F).assign st e2 e3).1 ∧
    goodHandle ((stdConfig F).assign st e2 e3).1
      ((stdConfig F).assign st e2 e3).2.1 y ∧
    goodHandle ((stdConfig F).assign st e2 e3).1
      ((stdConfig F).assign st e2 e3).2.2 (x + y) ∧
    goodHandle ((stdConfig F).assign st e2 e3).1 e3 y ∧
    ((stdConfig F).assign st e2 e3).1.instCopies = st.instCopies ∧
    ((stdConfig F).assign st e2 e3).1.regions.length =
      st.regions.length + 1 := by
  obtain ⟨h2r, h2v, h2x⟩ := h2
  obtain ⟨h3r, h3v, h3y⟩ := h3
  obtain ⟨hg, hc, hb⟩ := hok
  have hassign : (stdConfig F).assign st e2 e3 =
      (⟨st.regions ++ [⟨"next row", [0],
          [(0, e2.value), (1, e3.value), (2, Value.add e2.value e3.value)]⟩],
        st.copies ++ [(e2.cell, ⟨st.regions.length, 0⟩),
          (e3.cell, ⟨st.regions.length, 1⟩)],
        st.instCopies⟩,
       ⟨⟨st.regions.length, 1⟩, e3.value⟩,
       ⟨⟨st.regions.length, 2⟩, Value.add e2.value e3.value⟩) := rfl
  rw [hassign, h2x, h3y]
  rw [h2x] at h2v
  rw [h3y] at h3v
  refine ⟨⟨?_, ?_, ?_⟩, ?_, ?_, ?_, rfl, by simp⟩
  · -- gates hold on all regions of the new state
    intro rg hrg
    rcases List.mem_append.1 hrg with hold | hnew
    · exact hg rg hold
    · simp only [List.mem_singleton] at hnew
      subst hnew
      intro _
      show Value.sub (Value.add (Value.known x) (Value.known y))
        (Value.add (Value.known x) (Value.known y)) = Value.known 0
      exact gate_on_known x y
  · -- copies hold on the new state
    intro p hp
    rcases List.mem_append.1 hp with hold | hnew
    · have hcv := hc p hold
      have hbd := hb p hold
      rw [cellValue_append_lt st _ _ _ p.1 hbd.1,
        cellValue_append_lt st _ _ _ p.2 hbd.2]
      exact hcv
    · simp only [List.mem_cons, List.not_mem_nil, or_false] at hnew
      rcases hnew with rfl | rfl
      · rw [cellValue_append_lt st _ _ _ e2.cell h2r, h2v,
          cellValue_append_self, valAt_col0]
      · rw [cellValue_append_lt st _ _ _ e3.cell h3r, h3v,
          cellValue_append_self, valAt_col1]
  · -- recorded copies point below the new frontier
    intro p hp
    rcases List.mem_append.1 hp with hold | hnew
    · have hbd := hb p hold
      simp only [List.length_append, List.length_cons, List.length_nil]
      omega
    · simp only [List.mem_cons, List.not_mem_nil, or_false] at hnew
      rcases hnew with rfl | rfl
      · simp only [List.length_append, List.length_cons, List.length_nil]
        exact ⟨by omega, by omega⟩
      · simp only [List.length_append, List.length_cons, List.length_nil]
        exact ⟨by omega, by omega⟩
  · -- the returned elem_2 handle is good
    refine ⟨by simp, ?_, rfl⟩
    rw [cellValue_append_self, valAt_col1]
  · -- the returned elem_3 handle is good
    refine ⟨by simp, ?_, Value.add_known x y⟩
    rw [cellValue_append_self, valAt_col2]
  · -- the threaded elem_3 handle stays good
    refine ⟨by simp; omega, ?_, h3y⟩
    rw [cellValue_append_lt st _ _ _ e3.cell h3r, h3y]
    exact h3v

theorem synthLoop_inv {F : Type} [Field F] (k : Nat) :
    ∀ (st : SynthState F) (e2 e3 : AssignedCell F) (x y : F),
      goodHandle st e2 x → goodHandle st e3 y → stateOK (stdConfig F) st →
      stateOK (stdConfig F) (synthLoop (stdConfig F) k st e2 e3).1 ∧
      goodHandle (synthLoop (stdConfig F) k st e2 e3).1
        (synthLoop (stdConfig F) k st e2 e3).2.2 (fibSeq x y (k + 1)) ∧
      (synthLoop (stdConfig F) k st e2 e3).1.instCopies = st.instCopies ∧
      (synthLoop (stdConfig F) k st e2 e3).1.regions.length =
        st.regions.length + k := by
  induction k with
  | zero =>
      intro st e2 e3 x y h2 h3 hok
      exact ⟨hok, h3, rfl, rfl⟩
  | succ k ih =>
      intro st e2 e3 x y h2 h3 hok
      obtain ⟨hok1, hg2, hg3, hge3, hinst, hlen⟩ :=
        assign_step st e2 e3 x y h2 h3 hok
      obtain ⟨hokr, hgood, hinstr, hlenr⟩ :=
        ih ((stdConfig F).assign st e2 e3).1 e3
          ((stdConfig F).assign st e2 e3).2.2 y (x + y) hge3 hg3 hok1
      rw [fibSeq_shift] at hgood
      simp only [synthLoop]
      refine ⟨hokr, hgood, hinstr.trans hinst, ?_⟩
      rw [hlenr, hlen]
      omega

theorem chainLoop_inv {F : Type} [Field F] (k : Nat) :
    ∀ (st : SynthState F) (e2 e3 : AssignedCell F) (x y : F),
      goodHandle st e2 x → goodHandle st e3 y → stateOK (stdConfig F) st →
      stateOK (stdConfig F) (chainLoop (stdConfig F) k st e2 e3).1 ∧
      goodHandle (chainLoop (stdConfig F) k st e2 e3).1
        (chainLoop (stdConfig F) k st e2 e3).2.2 (fibSeq x y (k + 1)) ∧
      (chainLoop (stdConfig F) k st e2 e3).1.instCopies = st.instCopies ∧
      (chainLoop (stdConfig F) k st e2 e3).1.regions.length =
        st.regions.length + k := by
  induction k with
  | zero =>
      intro st e2 e3 x y h2 h3 hok
      exact ⟨hok, h3, rfl, rfl⟩
  | succ k ih =>
      intro st e2 e3 x y h2 h3 hok
      obtain ⟨hok1, hg2, hg3, hge3, hinst, hlen⟩ :=
        assign_step st e2 e3 x y h2 h3 hok
      obtain ⟨hokr, hgood, hinstr, hlenr⟩ :=
        ih ((stdConfig F).assign st e2 e3).1
          ((stdConfig F).assign st e2 e3).2.1
          ((stdConfig F).assign st e2 e3).2.2 y (x + y) hg2 hg3 hok1
      rw [fibSeq_shift] at hgood
      simp only [chainLoop]
      refine ⟨hokr, hgood, hinstr.trans hinst, ?_⟩
      rw [hlenr, hlen]
      omega

theorem init_from_empty {F : Type} [Field F] (a b : F) :
    stateOK (stdConfig F)
      ((stdConfig F).init (emptyState F) (Value.known a) (Value.known b)).1 ∧
    goodHandle ((stdConfig F).init (emptyState F) (Value.known a)
        (Value.known b)).1
      ((stdConfig F).init (emptyState F) (Value.known a) (Value.known b)).2.1
      b ∧
    goodHandle ((stdConfig F).init (emptyState F) (Value.known a)
        (Value.known b)).1
      ((stdConfig F).init (emptyState F) (Value.known a) (Value.known b)).2.2
      (a + b) ∧
    ((stdConfig F).init (emptyState F) (Value.known a)
      (Value.known b)).1.instCopies = [] ∧
    ((stdConfig F).init (emptyState F) (Value.known a)
      (Value.known b)).1.regions.length = 1 := by
  refine ⟨⟨?_, ?_, ?_⟩, ⟨?_, rfl, rfl⟩, ⟨?_, rfl, Value.add_known a b⟩,
    rfl, rfl⟩
  · intro rg hrg
    simp only [Config.init, emptyState, List.nil_append,
      List.mem_singleton] at hrg
    subst hrg
    intro _
    exact gate_on_known a b
  · intro p hp
    simp only [Config.init, emptyState, List.not_mem_nil] at hp
  · intro p hp
    simp only [Config.init, emptyState, List.not_mem_nil] at hp
  · exact Nat.zero_lt_one
  · exact Nat.zero_lt_one

theorem synthPair_unfold {F : Type} [Field F] (cfg : Config)
    (st : SynthState F) (v1 v2 : Value F) :
    MyCircuit.synthPair cfg st v1 v2 =
      synthLoop cfg 7 (cfg.init st v1 v2).1 (cfg.init st v1 v2).2.1
        (cfg.init st v1 v2).2.2 := rfl

theorem synthPairChained_unfold {F : Type} [Field F] (cfg : Config)
    (st : SynthState F) (v1 v2 : Value F) :
    MyCircuit.synthPairChained cfg st v1 v2 =
      chainLoop cfg 7 (cfg.init st v1 v2).1 (cfg.init st v1 v2).2.1
        (cfg.init st v1 v2).2.2 := rfl

theorem synthPair_inv {F : Type} [Field F] (a b : F) :
    stateOK (stdConfig F) (MyCircuit.synthPair (stdConfig F) (emptyState F)
      (Value.known a) (Value.known b)).1 ∧
    goodHandle (MyCircuit.synthPair (stdConfig F) (emptyState F)
        (Value.known a) (Value.known b)).1
      (MyCircuit.synthPair (stdConfig F) (emptyState F) (Value.known a)
        (Value.known b)).2.2 (fibSeq a b 9) ∧
    (MyCircuit.synthPair (stdConfig F) (emptyState F) (Value.known a)
      (Value.known b)).1.instCopies = [] ∧
    (MyCircuit.synthPair (stdConfig F) (emptyState F) (Value.known a)
      (Value.known b)).1.regions.length = 8 := by
  obtain ⟨hok0, hB0, hC0, hi0, hl0⟩ := init_from_empty (F := F) a b
  obtain ⟨hok, hgood, hinst, hlen⟩ :=
    synthLoop_inv 7 _ _ _ b (a + b) hB0 hC0 hok0
  rw [fibSeq_shift] at hgood
  norm_num at hgood
  rw [synthPair_unfold]
  refine ⟨hok, hgood, hinst.trans hi0, ?_⟩
  rw [hlen, hl0]

theorem synthPairChained_inv {F : Type} [Field F] (a b : F) :
    stateOK (stdConfig F) (MyCircuit.synthPairChained (stdConfig F)
      (emptyState F) (Value.known a) (Value.known b)).1 ∧
    goodHandle (MyCircuit.synthPairChained (stdConfig F) (emptyState F)
        (Value.known a) (Value.known b)).1
      (MyCircuit.synthPairChained (stdConfig F) (emptyState F)
        (Value.known a) (Value.known b)).2.2 (fibSeq a b 9) ∧
    (MyCircuit.synthPairChained (stdConfig F) (emptyState F) (Value.known a)
      (Value.known b)).1.instCopies = [] ∧
    (MyCircuit.synthPairChained (stdConfig F) (emptyState F) (Value.known a)
      (Value.known b)).1.regions.length = 8 := by
  obtain ⟨hok0, hB0, hC0, hi0, hl0⟩ := init_from_empty (F := F) a b
  obtain ⟨hok, hgood, hinst, hlen⟩ :=
    chainLoop_inv 7 _ _ _ b (a + b) hB0 hC0 hok0
  rw [fibSeq_shift] at hgood
  norm_num at hgood
  rw [synthPairChained_unfold]
  refine ⟨hok, hgood, hinst.trans hi0, ?_⟩
  rw [hlen, hl0]

theorem satisfied_expose_iff {F : Type} [Field F] (st : SynthState F)
    (h : AssignedCell F) (v : F) (hok : stateOK (stdConfig F) st)
    (hgood : goodHandle st h v) (hinst : st.instCopies = [])
    (pub : List F) :
    satisfied (stdConfig F) ((stdConfig F).expose_public st h 0) [pub] ↔
      pub[0]? = some v := by
  obtain ⟨hg, hc, hb⟩ := hok
  obtain ⟨hr, hv, hx⟩ := hgood
  have hexp : (stdConfig F).expose_public st h 0 =
      ⟨st.regions, st.copies, st.instCopies ++ [(h.cell, 0, 0)]⟩ := rfl
  rw [hexp, hinst, List.nil_append]
  have hcv : SynthState.cellValue
      ⟨st.regions, st.copies, [(h.cell, (0 : Nat), (0 : Nat))]⟩ h.cell =
        Value.known v := by
    show st.cellValue h.cell = Value.known v
    rw [hv, hx]
  have hlk : instLookup ([pub] : List (List F)) 0 0 = pub[0]? := rfl
  constructor
  · rintro ⟨-, -, hi⟩
    obtain ⟨hne, hval⟩ := hi (h.cell, 0, 0) (by simp)
    rw [hcv, hlk] at hval
    exact hval.symm
  · intro hp
    refine ⟨?_, ?_, ?_⟩
    · exact hg
    · exact hc
    · intro p hp'
      simp only [List.mem_singleton] at hp'
      subst hp'
      refine ⟨?_, ?_⟩
      · show instLookup ([pub] : List (List F)) 0 0 ≠ none
        rw [hlk, hp]
        simp
      · show SynthState.cellValue _ h.cell = instLookup ([pub] : List (List F)) 0 0
        rw [hlk, hp, hcv]
        rfl

theorem satisfied_fibTrace_iff {F : Type} [Field F] (a b : F)
    (pub : List F) :
    satisfied (stdConfig F) (fibTrace (Value.known a) (Value.known b))
      [pub] ↔ pub[0]? = some (fibSeq a b 9) := by
  obtain ⟨hok, hgood, hinst, hlen⟩ := synthPair_inv (F := F) a b
  have hft : fibTrace (Value.known a) (Value.known b) =
      (stdConfig F).expose_public
        (MyCircuit.synthPair (stdConfig F) (emptyState F) (Value.known a)
          (Value.known b)).1
        (MyCircuit.synthPair (stdConfig F) (emptyState F) (Value.known a)
          (Value.known b)).2.2 0 := rfl
  rw [hft]
  exact satisfied_expose_iff _ _ _ hok hgood hinst pub

theorem satisfied_chained_iff {F : Type} [Field F] (a b : F)
    (pub : List F) :
    satisfied (stdConfig F) (MyCircuit.synthesizeChained (stdConfig F)
      (emptyState F) (Value.known a) (Value.known b)) [pub] ↔
      pub[0]? = some (fibSeq a b 9) := by
  obtain ⟨hok, hgood, hinst, hlen⟩ := synthPairChained_inv (F := F) a b
  have hft : MyCircuit.synthesizeChained (stdConfig F) (emptyState F)
      (Value.known a) (Value.known b) =
      (stdConfig F).expose_public
        (MyCircuit.synthPairChained (stdConfig F) (emptyState F)
          (Value.known a) (Value.known b)).1
        (MyCircuit.synthPairChained (stdConfig F) (emptyState F)
          (Value.known a) (Value.known b)).2.2 0 := rfl
  rw [hft]
  exact satisfied_expose_iff _ _ _ hok hgood hinst pub

/-! ### Remaining claims -/

/-- Claim C1: after `Config::init` with known seeds `a`, `b` followed by
`k` chained `Config::assign` calls, the second returned handle
(`register3`) holds term `k+2` of the sequence `t0 = a`, `t1 = b`,
`tn = t(n-1) + t(n-2)`. -/
theorem claim1_recurrence {F : Type} [Field F] (a b : F) (k : Nat) :
    ((chainLoop (stdConfig F) k
        ((stdConfig F).init (emptyState F) (Value.known a)
          (Value.known b)).1
        ((stdConfig F).init (emptyState F) (Value.known a)
          (Value.known b)).2.1
        ((stdConfig F).init (emptyState F) (Value.known a)
          (Value.known b)).2.2).2.2).value =
      Value.known (fibSeq a b (k + 2)) := by
  obtain ⟨hok0, hB0, hC0, -, -⟩ := init_from_empty (F := F) a b
  have h := (chainLoop_inv k _ _ _ b (a + b) hB0 hC0 hok0).2.1.2.2
  rw [fibSeq_shift] at h
  exact h

/-- Claim C3: the single gate registered by `Config::configure` is
`selector * (reg1 + reg2 - reg3)`; every region written by `init` or
`assign` from known inputs has the selector enabled and satisfies
`reg1 + reg2 - reg3 = 0`; and with the selector inactive the registered
gate polynomial evaluates to zero whatever the advice values are. -/
theorem claim3_gate {F : Type} [Field F] :
    (∀ cs : ConstraintSystem F, (Config.configure cs).1.gates = cs.gates ++
      [⟨"fibonacci",
        [Expr.mul (Expr.selectorExpr (Config.configure cs).2.q_fib)
          (Expr.sub (Expr.add (Expr.advice (Config.configure cs).2.elem_1)
            (Expr.advice (Config.configure cs).2.elem_2))
            (Expr.advice (Config.configure cs).2.elem_3))]⟩]) ∧
    (∀ (st : SynthState F) (a b : F), ∃ rg : RegionData F,
      ((stdConfig F).init st (Value.known a) (Value.known b)).1.regions =
        st.regions ++ [rg] ∧ (stdConfig F).q_fib ∈ rg.selectors ∧
        gateHolds (stdConfig F) rg) ∧
    (∀ (st : SynthState F) (c1 c2 : CellRef) (a b : F),
      ∃ rg : RegionData F,
      ((stdConfig F).assign st ⟨c1, Value.known a⟩
          ⟨c2, Value.known b⟩).1.regions = st.regions ++ [rg] ∧
        (stdConfig F).q_fib ∈ rg.selectors ∧ gateHolds (stdConfig F) rg) ∧
    (∀ g : Gate F, g ∈ (Config.configure (emptyCS F)).1.gates →
      ∀ p ∈ g.polys, ∀ adv : Nat → F,
        Expr.eval (fun _ => 0) adv p = 0) := by
  refine ⟨fun cs => rfl, ?_, ?_, ?_⟩
  · intro st a b
    refine ⟨⟨"init Fibonacci", [(stdConfig F).q_fib],
      [((stdConfig F).elem_1, Value.known a),
       ((stdConfig F).elem_2, Value.known b),
       ((stdConfig F).elem_3, Value.add (Value.known a) (Value.known b))]⟩,
      rfl, List.mem_singleton.2 rfl, ?_⟩
    intro _
    exact gate_on_known a b
  · intro st c1 c2 a b
    refine ⟨⟨"next row", [(stdConfig F).q_fib],
      [((stdConfig F).elem_1, Value.known a),
       ((stdConfig F).elem_2, Value.known b),
       ((stdConfig F).elem_3, Value.add (Value.known a) (Value.known b))]⟩,
      rfl, List.mem_singleton.2 rfl, ?_⟩
    intro _
    exact gate_on_known a b
  · intro g hg p hp adv
    simp only [Config.configure, emptyCS, ConstraintSystem.advice_column,
      ConstraintSystem.instance_column, ConstraintSystem.enable_equality,
      ConstraintSystem.selector, ConstraintSystem.create_gate,
      List.nil_append, List.mem_singleton] at hg
    subst hg
    simp only [List.mem_singleton] at hp
    subst hp
    simp [Expr.eval]

/-- Claim C4: with seeds 1, 1 and the 7 stepper calls of the driver, the
final `register3` handle holds 55; the checker accepts public input [55]
and rejects [54]. -/
theorem claim4_concrete_scenario {F : Type} [Field F] :
    (MyCircuit.synthPair (stdConfig F) (emptyState F) (Value.known 1)
      (Value.known 1)).2.2.value = Value.known 55 ∧
    satisfied (stdConfig F)
      (fibTrace (Value.known (1 : F)) (Value.known 1)) [[55]] ∧
    ¬ satisfied (stdConfig F)
      (fibTrace (Value.known (1 : F)) (Value.known 1)) [[54]] := by
  have h9 : fibSeq (1 : F) 1 9 = 55 := by norm_num [fibSeq]
  refine ⟨?_, ?_, ?_⟩
  · have h := (synthPair_inv (F := F) 1 1).2.1.2.2
    rw [h9] at h
    exact h
  · rw [satisfied_fibTrace_iff, h9]
    rfl
  · rw [satisfied_fibTrace_iff, h9]
    intro h
    simp only [List.getElem?_cons_zero, Option.some.injEq] at h
    have h1 : (55 : F) - 54 = 1 := by norm_num
    rw [h] at h1
    rw [sub_self] at h1
    exact zero_ne_one h1

/-- Claim C6: the checker accepts the synthesized trace with a public
input column exactly when the entry at the bound slot (row 0) equals the
exposed cell's value; any mismatch is rejected. -/
theorem claim6_public_binding {F : Type} [Field F] (a b : F)
    (pub : List F) :
    satisfied (stdConfig F) (fibTrace (Value.known a) (Value.known b))
      [pub] ↔
      pub[0]? = (MyCircuit.synthPair (stdConfig F) (emptyState F)
        (Value.known a) (Value.known b)).2.2.value := by
  rw [(synthPair_inv (F := F) a b).2.1.2.2]
  exact satisfied_fibTrace_iff a b pub

/-- Claim C10: the source driver (which discards the `register2` handle
returned by `assign` and threads the previous `register3` handle instead)
produces the same regions, hence the same cell values, the same instance
binding, and a trace the checker accepts for exactly the same public
inputs as the driver that threads the returned handles. -/
theorem claim10_driver_refinement {F : Type} [Field F] (a b : F) :
    (MyCircuit.synthesize (stdConfig F) (emptyState F) (Value.known a)
      (Value.known b)).regions =
      (MyCircuit.synthesizeChained (stdConfig F) (emptyState F)
        (Value.known a) (Value.known b)).regions ∧
    (MyCircuit.synthesize (stdConfig F) (emptyState F) (Value.known a)
      (Value.known b)).instCopies =
      (MyCircuit.synthesizeChained (stdConfig F) (emptyState F)
        (Value.known a) (Value.known b)).instCopies ∧
    ∀ pub : List F,
      (satisfied (stdConfig F) (MyCircuit.synthesize (stdConfig F)
        (emptyState F) (Value.known a) (Value.known b)) [pub] ↔
      satisfied (stdConfig F) (MyCircuit.synthesizeChained (stdConfig F)
        (emptyState F) (Value.known a) (Value.known b)) [pub]) := by
  refine ⟨rfl, rfl, fun pub => ?_⟩
  exact (satisfied_fibTrace_iff a b pub).trans
    (satisfied_chained_iff a b pub).symm

/-! ### Witnesses -/

/-- Witness for C1 at the concrete field `ZMod 101`, seeds 1, 1, 7 steps. -/
theorem claim1_witness :
    ((chainLoop (stdConfig (ZMod 101)) 7
        ((stdConfig (ZMod 101)).init (emptyState (ZMod 101))
          (Value.known 1) (Value.known 1)).1
        ((stdConfig (ZMod 101)).init (emptyState (ZMod 101))
          (Value.known 1) (Value.known 1)).2.1
        ((stdConfig (ZMod 101)).init (emptyState (ZMod 101))
          (Value.known 1) (Value.known 1)).2.2).2.2).value =
      Value.known 55 := by
  have h := claim1_recurrence (F := ZMod 101) 1 1 7
  rw [show fibSeq (1 : ZMod 101) 1 9 = 55 by decide] at h
  exact h

/-- Witness for C3: the registered gate polynomial evaluates to 0 on a
row with the selector off and all registers set to 7. -/
theorem claim3_witness :
    Expr.eval (fun _ => (0 : ZMod 101)) (fun _ => 7)
      (Expr.mul (Expr.selectorExpr 0)
        (Expr.sub (Expr.add (Expr.advice 0) (Expr.advice 1))
          (Expr.advice 2))) = 0 := by
  refine (claim3_gate (F := ZMod 101)).2.2.2
    ⟨"fibonacci",
      [Expr.mul (Expr.selectorExpr 0)
        (Expr.sub (Expr.add (Expr.advice 0) (Expr.advice 1))
          (Expr.advice 2))]⟩ ?_ _ ?_ (fun _ => 7)
  · decide
  · decide

/-- Witness for C4: the rejection of [54] at the concrete field. -/
theorem claim4_witness :
    ¬ satisfied (stdConfig (ZMod 101))
      (fibTrace (Value.known (1 : ZMod 101)) (Value.known 1)) [[54]] :=
  (claim4_concrete_scenario (F := ZMod 101)).2.2

/-- Witness for C6 at the concrete field with public input [55]. -/
theorem claim6_witness :
    satisfied (stdConfig (ZMod 101))
      (fibTrace (Value.known (1 : ZMod 101)) (Value.known 1)) [[55]] ↔
      ([55] : List (ZMod 101))[0]? =
        (MyCircuit.synthPair (stdConfig (ZMod 101)) (emptyState (ZMod 101))
          (Value.known 1) (Value.known 1)).2.2.value :=
  claim6_public_binding (F := ZMod 101) 1 1 [55]

/-- Witness for C10 at the concrete field with public input [55]. -/
theorem claim10_witness :
    satisfied (stdConfig (ZMod 101)) (MyCircuit.synthesize
      (stdConfig (ZMod 101)) (emptyState (ZMod 101))
      (Value.known (1 : ZMod 101)) (Value.known 1)) [[55]] ↔
    satisfied (stdConfig (ZMod 101)) (MyCircuit.synthesizeChained
      (stdConfig (ZMod 101)) (emptyState (ZMod 101))
      (Value.known (1 : ZMod 101)) (Value.known 1)) [[55]] :=
  (claim10_driver_refinement (F := ZMod 101) 1 1).2.2 [55]

end Halo2Fib
